import Mathlib

/-!
Shallow embedding of `scripts/nasdaq_returns.py`, a single linear script that
downloads adjusted-close prices for a ticker, derives daily and cumulative
returns, prints a summary and renders a two-panel chart.

Modelling choices:
* pandas floats are modelled as rationals (`ℚ`); the spec's numeric
  properties are exact identities stated "within floating-point tolerance",
  which hold exactly over `ℚ`.
* A `pd.DataFrame` of prices is a `List PricePoint`; the derived returns
  frame is a `List ReturnPoint`.
* Python exceptions become `Except RunError`: `RuntimeError` raised by
  `fetch_price_history` on an empty download is `RunError.noData`,
  `ValueError` from `datetime.fromisoformat` is `RunError.formatError`,
  and `IndexError` from `.iloc` is `RunError.indexError`.
* The external provider call `yf.download(...)` is an injected value: the
  rows the provider returned are passed to `fetch_price_history` as an
  argument.
* For the frame/no-mutation claim, a second embedding of `compute_returns`
  runs over an explicit heap of dataframes, where `.copy()` allocates and
  column assignment mutates a heap cell, mirroring the aliasing structure
  of the Python code.
-/

/-- Errors a run can surface: `RuntimeError` for an empty download,
`ValueError` for a bad ISO date string, `IndexError` for `.iloc`
out of bounds. -/
inductive RunError where
  | noData
  | formatError
  | indexError
deriving DecidableEq, Repr

/-- One row of the price history kept by `fetch_price_history`:
the date index together with the single retained `adj_close` column. -/
structure PricePoint where
  date : Int
  adj_close : ℚ
deriving DecidableEq, Repr

/-- One row of the frame produced by `compute_returns`: the `adj_close`
column of the input plus the two derived columns. -/
structure ReturnPoint where
  date : Int
  adj_close : ℚ
  daily_return : ℚ
  cumulative_return : ℚ
deriving DecidableEq, Repr

/-- A raw row as returned by `yf.download` with `auto_adjust=False`:
open/high/low/close/adj-close/volume per trading day.  Only `date` and
`adj_close` survive the column selection in `fetch_price_history`. -/
structure ProviderRow where
  date : Int
  openPrice : ℚ
  high : ℚ
  low : ℚ
  close : ℚ
  adj_close : ℚ
  volume : ℚ
deriving DecidableEq, Repr

/-- Configuration dataclass `AnalysisConfig`: frozen dataclass with default ticker and date range
(`scripts/nasdaq_returns.py` lines 11-15). -/
structure AnalysisConfig where
  ticker : String := "^IXIC"
  start_date : String := "2005-01-01"
  end_date : String := "2025-10-28"
deriving DecidableEq, Repr

/-- Dataclass construction with keyword defaults: each omitted field takes
its declared default value.  No validation happens here. -/
def AnalysisConfig.create (ticker start_date end_date : Option String) :
    AnalysisConfig :=
  { ticker := ticker.getD "^IXIC"
    start_date := start_date.getD "2005-01-01"
    end_date := end_date.getD "2025-10-28" }

/-- A parsed calendar date, the date part of the `datetime` that
`datetime.fromisoformat` returns.  The script formats the parsed values
with `%Y-%m-%d` only, so the time-of-day part (validated during parsing)
carries no information and is dropped here. -/
structure Date where
  year : Nat
  month : Nat
  day : Nat
deriving DecidableEq, Repr

/-!
Embedding of `datetime.fromisoformat` (the parser `date_range` calls),
ported from CPython 3.11: `_find_isoformat_datetime_separator`,
`_parse_isoformat_date` (calendar and ISO-week forms),
`_parse_isoformat_time` with its `HH[:?MM[:?SS[{.,:}f+]]]` worker and
time-zone handling, the ISO-week-to-Gregorian conversion, and the
`datetime` constructor range checks (`MINYEAR = 1`, `MAXYEAR = 9999`,
month/day/hour/minute/second bounds, and the strict 24-hour bound on a
UTC offset).  Numeric fields follow the C accelerator, which is what
CPython actually runs: fixed-width runs of ASCII digits (the pure-Python
fallback's `int()` would additionally tolerate signs and whitespace).
The parsed time is validated and then discarded; only the calendar date
is retained, which is all this script ever uses.
-/

/-- Embeds the C accelerator's `parse_digits`: read exactly `n` ASCII
digits of `u` starting at position `pos`, returning their value.  Running
past the end of the string behaves like hitting the terminator. -/
def parseDigitsAux (u : List Char) : Nat → Nat → Nat → Option Nat
  | _pos, 0, acc => some acc
  | pos, n + 1, acc =>
    match u.get? pos with
    | some c =>
      if c.isDigit then parseDigitsAux u (pos + 1) n (acc * 10 + (c.toNat - 48))
      else none
    | none => none

/-- Read `n` ASCII digits at position `pos` of `u`. -/
def parseDigits (u : List Char) (pos n : Nat) : Option Nat :=
  parseDigitsAux u pos n 0

/-- Whether every character of `u` in positions `[pos, endPos)` is an
ASCII digit (the check on unparsed fraction digits past microsecond
precision). -/
def asciiDigitsOnly (u : List Char) (pos endPos : Nat) : Bool :=
  ((u.take endPos).drop pos).all fun c => c.isDigit

/-- Embeds `_is_leap`: Gregorian leap-year test. -/
def is_leap (year : Nat) : Bool :=
  year % 4 == 0 && (year % 100 != 0 || year % 400 == 0)

/-- Embeds `_DAYS_IN_MONTH` (index 0 is the placeholder). -/
def DAYS_IN_MONTH : List Nat :=
  [0, 31, 28, 31, 30, 31, 30, 31, 31, 30, 31, 30, 31]

/-- Embeds `_DAYS_BEFORE_MONTH` (index 0 is the placeholder). -/
def DAYS_BEFORE_MONTH : List Nat :=
  [0, 0, 31, 59, 90, 120, 151, 181, 212, 243, 273, 304, 334]

/-- Embeds `_days_in_month`. -/
def days_in_month (year month : Nat) : Nat :=
  if month == 2 && is_leap year then 29 else DAYS_IN_MONTH.getD month 0

/-- Embeds `_days_before_month`. -/
def days_before_month (year month : Nat) : Nat :=
  DAYS_BEFORE_MONTH.getD month 0 + (if month > 2 && is_leap year then 1 else 0)

/-- Embeds `_days_before_year`: days before January 1st of `year`. -/
def days_before_year (year : Nat) : Nat :=
  let y := year - 1
  y * 365 + y / 4 - y / 100 + y / 400

/-- Embeds `_ymd2ord`: proleptic-Gregorian ordinal of a date, with
01-Jan-0001 as day 1. -/
def ymd2ord (year month day : Nat) : Nat :=
  days_before_year year + days_before_month year month + day

/-- Number of days in 400 Gregorian years. -/
def DI400Y : Nat := days_before_year 401

/-- Number of days in 100 Gregorian years. -/
def DI100Y : Nat := days_before_year 101

/-- Number of days in 4 Gregorian years. -/
def DI4Y : Nat := days_before_year 5

/-- Embeds `_ord2ymd`: ordinal back to `(year, month, day)`. -/
def ord2ymd (n0 : Nat) : Nat × Nat × Nat :=
  let n := n0 - 1
  let n400 := n / DI400Y
  let n := n % DI400Y
  let year := n400 * 400 + 1
  let n100 := n / DI100Y
  let n := n % DI100Y
  let n4 := n / DI4Y
  let n := n % DI4Y
  let n1 := n / 365
  let n := n % 365
  let year := year + n100 * 100 + n4 * 4 + n1
  if n1 == 4 || n100 == 4 then (year - 1, 12, 31)
  else
    let leapyear := n1 == 3 && (n4 != 24 || n100 == 3)
    let month := (n + 50) / 32
    let preceding := DAYS_BEFORE_MONTH.getD month 0 +
      (if month > 2 && leapyear then 1 else 0)
    if preceding > n then
      let month := month - 1
      let preceding := preceding - (DAYS_IN_MONTH.getD month 0 +
        (if month == 2 && leapyear then 1 else 0))
      (year, month, n - preceding + 1)
    else
      (year, month, n - preceding + 1)

/-- Embeds `_isoweek1monday`: ordinal of the Monday starting ISO week 1. -/
def isoweek1monday (year : Nat) : Nat :=
  let firstday := ymd2ord year 1 1
  let firstweekday := (firstday + 6) % 7
  let week1monday := firstday - firstweekday
  if firstweekday > 3 then week1monday + 7 else week1monday

/-- Embeds `_isoweek_to_gregorian`: validate an ISO year/week/weekday and
convert to a calendar date (`None` models the raised `ValueError`). -/
def isoweek_to_gregorian (year week day : Nat) : Option (Nat × Nat × Nat) :=
  if year < 1 || year > 9999 then none
  else
    let weekOK :=
      if 0 < week && week < 53 then true
      else if week == 53 then
        let first_weekday := ymd2ord year 1 1 % 7
        first_weekday == 4 || (first_weekday == 3 && is_leap year)
      else false
    if !weekOK then none
    else if !(0 < day && day < 8) then none
    else
      let day_offset := (week - 1) * 7 + (day - 1)
      let day_1 := isoweek1monday year
      some (ord2ymd (day_1 + day_offset))

/-- Embeds `_find_isoformat_datetime_separator`: position of the single
character separating the date portion from the time portion. -/
def find_isoformat_datetime_separator (u : List Char) : Option Nat :=
  if u.length == 7 then some 7
  else if u.get? 4 == some '-' then
    if u.get? 5 == some 'W' then
      if u.length < 8 then none
      else if u.length > 8 && u.get? 8 == some '-' then
        if u.length == 9 then none
        else if u.length > 10 && ((u.get? 10).getD ' ').isDigit then some 8
        else some 10
      else some 8
    else some 10
  else
    if u.get? 4 == some 'W' then
      let idx := 7 + ((u.drop 7).takeWhile fun c => c.isDigit).length
      if idx < 9 then some idx
      else if idx % 2 == 0 then some 7
      else some 8
    else some 8

/-- Embeds `_parse_isoformat_date` on the date portion `dstr` (strict
digit fields as in the C accelerator): `YYYY-MM-DD`, `YYYYMMDD`,
`YYYY-Www[-D]` or `YYYYWww[D]`, with consistent use of the dash. -/
def parse_isoformat_date (dstr : List Char) : Option (Nat × Nat × Nat) :=
  match parseDigits dstr 0 4 with
  | none => none
  | some year =>
    let has_sep := dstr.get? 4 == some '-'
    let pos := if has_sep then 5 else 4
    if dstr.get? pos == some 'W' then
      match parseDigits dstr (pos + 1) 2 with
      | none => none
      | some weekno =>
        let pos := pos + 3
        if dstr.length > pos then
          if (dstr.get? pos == some '-') != has_sep then none
          else
            let pos := if has_sep then pos + 1 else pos
            match parseDigits dstr pos 1 with
            | none => none
            | some dayno => isoweek_to_gregorian year weekno dayno
        else isoweek_to_gregorian year weekno 1
    else
      match parseDigits dstr pos 2 with
      | none => none
      | some month =>
        let pos := pos + 2
        if (dstr.get? pos == some '-') != has_sep then none
        else
          let pos := if has_sep then pos + 1 else pos
          match parseDigits dstr pos 2 with
          | none => none
          | some day => some (year, month, day)

/-- Result of the `HH[:?MM[:?SS[{.,:}f+]]]` worker: the four parsed time
components plus the C return code `rv` (`0` when parsing stopped flush
with the end of the string, `1` when the final separator character it
consumed was an actual character — the time-zone sign, or a dangling
character the C parser drops). -/
structure HMSFF where
  hour : Nat
  minute : Nat
  second : Nat
  microsecond : Nat
  rv : Nat
deriving DecidableEq, Repr

/-- Build an `HMSFF` from the components parsed so far. -/
def mkHMSFF (acc : List Nat) (us rv : Nat) : HMSFF :=
  { hour := acc.getD 0 0, minute := acc.getD 1 0, second := acc.getD 2 0
    microsecond := us, rv := rv }

/-- Fraction-correction factors for 1-5 parsed fractional digits
(`_FRACTION_CORRECTION` / the C `correction` array). -/
def FRACTION_CORRECTION : List Nat :=
  [100000, 10000, 1000, 100, 10]

/-- Fractional-seconds tail of the worker: up to six digits are parsed
(scaled to microseconds), any further characters up to the slice end must
be digits and are truncated away. -/
def hmsFraction (u : List Char) (L pos : Nat) (acc : List Nat) :
    Option HMSFF :=
  let len_remains := L - pos
  let to_parse := min 6 len_remains
  match parseDigits u pos to_parse with
  | none => none
  | some us0 =>
    let us := if to_parse < 6 then
        us0 * FRACTION_CORRECTION.getD (to_parse - 1) 0
      else us0
    if asciiDigitsOnly u (pos + to_parse) L then some (mkHMSFF acc us 0)
    else none

/-- Embeds the C accelerator's `parse_hh_mm_ss_ff` loop over the slice
`[pos, L)` of `u` (the underlying buffer is read past the slice end
exactly as the C code does): two-digit components, a colon separator
fixed by the first component, `.`/`,` (or a colon after the seconds)
introducing the fraction, and unseparated components backing up one
character.  `fuel` counts the components still allowed (3 at entry). -/
def hmsLoop (u : List Char) (L : Nat) :
    Nat → Nat → Bool → List Nat → Option HMSFF
  | 0, pos, _hasSep, acc => hmsFraction u L pos acc
  | fuel + 1, pos, hasSep, acc =>
    match parseDigits u pos 2 with
    | none => none
    | some v =>
      let acc := acc ++ [v]
      let cpos := pos + 2
      let hasSep := if acc.length == 1 then u.get? cpos == some ':' else hasSep
      if cpos + 1 ≥ L then
        some (mkHMSFF acc 0 (if cpos < u.length then 1 else 0))
      else
        match u.get? cpos with
        | some ':' =>
          if hasSep then hmsLoop u L fuel (cpos + 1) hasSep acc else none
        | some '.' => hmsFraction u L (cpos + 1) acc
        | some ',' => hmsFraction u L (cpos + 1) acc
        | some _ =>
          if hasSep then none else hmsLoop u L fuel cpos hasSep acc
        | none => none

/-- A parsed time: the clock components and, when a time zone was given,
its signed total offset in microseconds. -/
structure TimeParts where
  hour : Nat
  minute : Nat
  second : Nat
  microsecond : Nat
  tzTotalUS : Option Int
deriving DecidableEq, Repr

/-- Embeds `_parse_isoformat_time` as the C accelerator behaves: split at
the first `Z`/`+`/`-`, parse the clock part against that boundary, then
handle `Z` (which must be final) or parse the offset part, which must end
flush with the string. -/
def parse_isoformat_time (tu : List Char) : Option TimeParts :=
  let L := (tu.findIdx? fun c => c == 'Z' || c == '+' || c == '-').getD tu.length
  match hmsLoop tu L 3 0 false [] with
  | none => none
  | some t =>
    if L == tu.length then
      if t.rv == 0 then
        some { hour := t.hour, minute := t.minute, second := t.second
               microsecond := t.microsecond, tzTotalUS := none }
      else none
    else if tu.get? L == some 'Z' then
      if L + 1 == tu.length then
        some { hour := t.hour, minute := t.minute, second := t.second
               microsecond := t.microsecond, tzTotalUS := some 0 }
      else none
    else
      match hmsLoop tu tu.length 3 (L + 1) false [] with
      | none => none
      | some tz =>
        if tz.rv == 0 then
          let total : Int :=
            ((tz.hour * 3600 + tz.minute * 60 + tz.second) * 1000000 +
              tz.microsecond : Nat)
          some { hour := t.hour, minute := t.minute, second := t.second
                 microsecond := t.microsecond
                 tzTotalUS := some (if tu.get? L == some '-' then -total
                   else total) }
        else none

/-- The `datetime` constructor checks on a date: `MINYEAR ≤ year ≤
MAXYEAR` and a calendar-valid month and day. -/
def check_date_fields (year month day : Nat) : Bool :=
  1 ≤ year && year ≤ 9999 && 1 ≤ month && month ≤ 12 &&
    1 ≤ day && day ≤ days_in_month year month

/-- The `datetime` constructor checks on a time: clock ranges, and a UTC
offset strictly smaller than 24 hours in magnitude. -/
def check_time_fields (t : TimeParts) : Bool :=
  t.hour ≤ 23 && t.minute ≤ 59 && t.second ≤ 59 &&
    t.microsecond ≤ 999999 &&
    (match t.tzTotalUS with
     | none => true
     | some off => off.natAbs < 86400000000)

/-- Embeds `datetime.fromisoformat` on the character list: length check,
separator search, date parse, mandatory valid time when anything follows
the separator, and the constructor range checks. -/
def fromisoformatCore (u : List Char) : Option Date :=
  if u.length < 7 then none
  else
    match find_isoformat_datetime_separator u with
    | none => none
    | some sep =>
      match parse_isoformat_date (u.take sep) with
      | none => none
      | some (year, month, day) =>
        let timeOK :=
          if u.length > sep then
            let tu := u.drop (sep + 1)
            if tu.isEmpty then false
            else
              match parse_isoformat_time tu with
              | none => false
              | some t => check_time_fields t
          else true
        if timeOK && check_date_fields year month day then
          some { year := year, month := month, day := day }
        else none

/-- Embeds `datetime.fromisoformat`: parse an ISO 8601 date-time string,
keeping the calendar date (the only part this script uses); any parse or
range failure raises `ValueError` (`RunError.formatError`). -/
def fromisoformat (s : String) : Except RunError Date :=
  match fromisoformatCore s.toList with
  | some d => Except.ok d
  | none => Except.error RunError.formatError

/-!
Concrete agreement checks of the embedded parser against
`datetime.fromisoformat` on CPython 3.11, one per behaviour class:
calendar and basic-format dates, `MINYEAR`/`MAXYEAR` and calendar
validity, ISO week dates, every time-suffix shape the parser treats
specially (arbitrary separator character, fraction truncation, the
colon-fraction quirk, `Z`, offset bounds), and malformed strings.
-/

example : fromisoformat "2005-01-01" = Except.ok ⟨2005, 1, 1⟩ := rfl

example : fromisoformat "0001-01-01" = Except.ok ⟨1, 1, 1⟩ := rfl

example : fromisoformat "9999-12-31" = Except.ok ⟨9999, 12, 31⟩ := rfl

example : fromisoformat "2004-02-29" = Except.ok ⟨2004, 2, 29⟩ := rfl

example : fromisoformat "20050101" = Except.ok ⟨2005, 1, 1⟩ := rfl

example : fromisoformat "2005-W01-2" = Except.ok ⟨2005, 1, 4⟩ := rfl

example : fromisoformat "2015-W53" = Except.ok ⟨2015, 12, 28⟩ := rfl

example : fromisoformat "2005-01-01T00:00:00" = Except.ok ⟨2005, 1, 1⟩ := rfl

example : fromisoformat "2005-01-01 12:30" = Except.ok ⟨2005, 1, 1⟩ := rfl

example : fromisoformat "2005-01-01X12:30" = Except.ok ⟨2005, 1, 1⟩ := rfl

example : fromisoformat "2005-01-01T12:30:45.123456789+05:00" =
    Except.ok ⟨2005, 1, 1⟩ := rfl

example : fromisoformat "2005-01-01T12:30Z" = Except.ok ⟨2005, 1, 1⟩ := rfl

example : fromisoformat "2005-01-01T12:30+23:59:59.999999" =
    Except.ok ⟨2005, 1, 1⟩ := rfl

example : fromisoformat "2005-01-01T12:30:45:123" =
    Except.ok ⟨2005, 1, 1⟩ := rfl

example : fromisoformat "0000-01-01" = Except.error RunError.formatError := rfl

example : fromisoformat "2005-02-29" = Except.error RunError.formatError := rfl

example : fromisoformat "2005-13-01" = Except.error RunError.formatError := rfl

example : fromisoformat "2005-1-1" = Except.error RunError.formatError := rfl

example : fromisoformat "2005-01-01T" = Except.error RunError.formatError := rfl

example : fromisoformat "2005-01-01T24:00" =
    Except.error RunError.formatError := rfl

example : fromisoformat "2005-01-01T12:30+24:00" =
    Except.error RunError.formatError := rfl

example : fromisoformat "2005-W53" = Except.error RunError.formatError := rfl

example : fromisoformat "2005-01-01T12:30z" =
    Except.error RunError.formatError := rfl

example : fromisoformat "hello" = Except.error RunError.formatError := rfl

/-- Embeds `AnalysisConfig.date_range` (lines 17-19): parse both stored strings
with `fromisoformat`; the first failure propagates. -/
def AnalysisConfig.date_range (config : AnalysisConfig) :
    Except RunError (Date × Date) := do
  let s ← fromisoformat config.start_date
  let e ← fromisoformat config.end_date
  return (s, e)

/-- Embeds `fetch_price_history` (lines 22-40): the provider response `downloaded`
stands for the dataframe returned by `yf.download`.  An empty frame raises
`RuntimeError` (`noData`); otherwise only the `Adj Close` column is kept
(renamed `adj_close`). -/
def fetch_price_history (downloaded : List ProviderRow)
    (_config : AnalysisConfig) : Except RunError (List PricePoint) :=
  if downloaded.isEmpty then
    Except.error RunError.noData
  else
    Except.ok (downloaded.map fun r => { date := r.date, adj_close := r.adj_close })

/-- Embeds `Series.pct_change`: entry 0 is missing (`none`, pandas `NaN`), entry
`i > 0` is `x[i] / x[i-1] - 1`. -/
def pct_change (xs : List ℚ) : List (Option ℚ) :=
  match xs with
  | [] => []
  | x :: rest =>
    none :: List.zipWith (fun prev cur => some (cur / prev - 1)) (x :: rest) rest

/-- Embeds `Series.fillna(v)`: replace every missing entry by `v`. -/
def fillna (v : ℚ) (xs : List (Option ℚ)) : List ℚ :=
  xs.map fun o => o.getD v

/-- Running-product worker for `Series.cumprod`: multiplies each element
into the accumulator and emits the updated accumulator, one pass. -/
def cumprodAux (acc : ℚ) : List ℚ → List ℚ
  | [] => []
  | x :: rest => (acc * x) :: cumprodAux (acc * x) rest

/-- Embeds `Series.cumprod`: the incremental running product of the series. -/
def cumprod (xs : List ℚ) : List ℚ :=
  cumprodAux 1 xs

/-- Whether a rational cell is missing.  Over `ℚ` no `NaN` exists, so no
cell is ever missing in the derived frame; kept explicit so that
`dropna` below mirrors the pandas call. -/
def isna (_x : ℚ) : Bool :=
  false

/-- Embeds `DataFrame.dropna()` on the returns frame: keep the rows in which no
cell is missing. -/
def dropna (rows : List ReturnPoint) : List ReturnPoint :=
  rows.filter fun r =>
    !(isna r.adj_close || isna r.daily_return || isna r.cumulative_return)

/-- Reassemble the frame rows from the index/price column and the two
derived columns (column-aligned zip, as pandas column assignment does). -/
def mkReturnRows : List PricePoint → List ℚ → List ℚ → List ReturnPoint
  | p :: ps, d :: ds, c :: cs =>
    { date := p.date, adj_close := p.adj_close,
      daily_return := d, cumulative_return := c } :: mkReturnRows ps ds cs
  | _, _, _ => []

/-- Embeds `compute_returns` (lines 43-49): copy the price frame, add
`daily_return = pct_change(adj_close).fillna(0)`, form the growth factors
`1 + daily_return`, add `cumulative_return = cumprod(growth) - 1`, and
`dropna()` the result. -/
def compute_returns (price_history : List PricePoint) : List ReturnPoint :=
  let daily := fillna 0 (pct_change (price_history.map fun p => p.adj_close))
  let growth_factors := daily.map fun r => 1 + r
  let cumulative := (cumprod growth_factors).map fun g => g - 1
  dropna (mkReturnRows price_history daily cumulative)

/-- Embeds `Series.iloc[i]`: positional access with Python semantics, a negative
index counts from the end; out of bounds raises `IndexError`. -/
def iloc (xs : List ReturnPoint) (i : Int) : Except RunError ReturnPoint :=
  let j : Int := if i < 0 then i + xs.length else i
  if h : 0 ≤ j ∧ j.toNat < xs.length then
    Except.ok (xs.get ⟨j.toNat, h.2⟩)
  else
    Except.error RunError.indexError

/-- The values `summarize_returns` interpolates into its printed lines:
ticker, the parsed configured dates, the first and last adjusted closes
and the final cumulative return. -/
structure SummaryData where
  ticker : String
  start_date : Date
  end_date : Date
  first_price : ℚ
  last_price : ℚ
  total_return : ℚ
deriving DecidableEq, Repr

/-- Embeds `summarize_returns` (lines 52-65): parse the configured dates, read
`iloc[0]` and `iloc[-1]` of the returns frame, and print the summary built
from those values.  The result records exactly the values printed. -/
def summarize_returns (returns : List ReturnPoint) (config : AnalysisConfig) :
    Except RunError SummaryData := do
  let (start_date, end_date) ← config.date_range
  let firstRow ← iloc returns 0
  let lastRow ← iloc returns (-1)
  return { ticker := config.ticker
           start_date := start_date
           end_date := end_date
           first_price := firstRow.adj_close
           last_price := lastRow.adj_close
           total_return := lastRow.cumulative_return }

/-- The two-panel figure `plot_returns` hands to the display surface:
price vs. date on top, cumulative return (in percent) vs. date below. -/
structure Chart where
  price_series : List (Int × ℚ)
  cum_series : List (Int × ℚ)
  price_title : String
  cum_title : String
deriving DecidableEq, Repr

/-- Embeds `plot_returns` (lines 68-91): build the figure from the returns frame;
the second panel plots `cumulative_return * 100`. -/
def plot_returns (returns : List ReturnPoint) (config : AnalysisConfig) :
    Chart :=
  { price_series := returns.map fun r => (r.date, r.adj_close)
    cum_series := returns.map fun r => (r.date, r.cumulative_return * 100)
    price_title := config.ticker ++ " Adjusted Close Price"
    cum_title := "Cumulative Return Since Start Date" }

/-- What a completed run hands to the outside world: the printed summary
and the displayed chart, in pipeline order.  An aborted run produces
neither (the error unwinds to the process boundary). -/
structure RunOutput where
  summary : SummaryData
  chart : Chart
deriving DecidableEq, Repr

/-- Embeds `main` (lines 122-127) after argument parsing: fetch, compute,
summarize, plot.  The provider response stands in for the network call;
any raised error aborts before the remaining stages. -/
def main_run (downloaded : List ProviderRow) (config : AnalysisConfig) :
    Except RunError RunOutput := do
  let price_history ← fetch_price_history downloaded config
  let returns := compute_returns price_history
  let summary ← summarize_returns returns config
  let chart := plot_returns returns config
  return { summary := summary, chart := chart }

/-!
Heap-level embedding of `compute_returns`, used to state that the input
dataframe is never mutated.  A dataframe value is its date index together
with named numeric columns; the heap is the store of live dataframes, and
a Python variable holding a dataframe is an index into that heap.
`price_history.copy()` allocates a fresh cell, column assignment
(`returns[...] = ...`) mutates a cell in place, and `dropna()` allocates
the filtered result as a new frame.
-/

/-- A dataframe value: the date index plus named numeric columns. -/
structure FrameVal where
  dates : List Int
  cols : List (String × List ℚ)
deriving DecidableEq, Repr

/-- The store of live dataframes; a dataframe variable is an index. -/
abbrev Heap := List FrameVal

/-- Read a column by name (missing column reads as empty). -/
def getCol (f : FrameVal) (name : String) : List ℚ :=
  (f.cols.lookup name).getD []

/-- Column assignment on the column list: replace the named column if
present, otherwise append it at the end (pandas `df[name] = values`). -/
def setColAux : List (String × List ℚ) → String → List ℚ → List (String × List ℚ)
  | [], n, v => [(n, v)]
  | (m, w) :: rest, n, v =>
    if m = n then (n, v) :: rest else (m, w) :: setColAux rest n v

/-- Column assignment on a frame value. -/
def setCol (f : FrameVal) (name : String) (v : List ℚ) : FrameVal :=
  { f with cols := setColAux f.cols name v }

/-- Whether row `i` of the frame has a missing cell in some column. -/
def rowHasNA (f : FrameVal) (i : Nat) : Bool :=
  f.cols.any fun c =>
    match c.2.get? i with
    | some x => isna x
    | none => true

/-- Embeds `DataFrame.dropna()` at the frame level: keep exactly the rows with no
missing cell, preserving order; the result is a fresh frame. -/
def dropnaFrame (f : FrameVal) : FrameVal :=
  let keep := (List.range f.dates.length).filter fun i => !(rowHasNA f i)
  { dates := keep.filterMap fun i => f.dates.get? i
    cols := f.cols.map fun c => (c.1, keep.filterMap fun i => c.2.get? i) }

/-- The empty frame, read when a heap reference is dangling. -/
def emptyFrame : FrameVal :=
  { dates := [], cols := [] }

/-- Dereference a dataframe variable. -/
def heapGet (h : Heap) (r : Nat) : FrameVal :=
  (List.get? h r).getD emptyFrame

/-- Allocate a fresh dataframe cell, returning its reference. -/
def heapAlloc (h : Heap) (v : FrameVal) : Heap × Nat :=
  (h ++ [v], h.length)

/-- Overwrite the cell a dataframe variable points to. -/
def heapSet (h : Heap) (r : Nat) (v : FrameVal) : Heap :=
  List.set h r v

/-- Embeds `compute_returns` replayed against the heap, statement for statement:
`returns = price_history.copy()` allocates; the two column assignments
mutate the `returns` cell only; `dropna()` allocates the result frame. -/
def compute_returns_heap (h : Heap) (price_history : Nat) : Heap × Nat :=
  let (h1, returns) := heapAlloc h (heapGet h price_history)
  let adj := getCol (heapGet h1 returns) "adj_close"
  let daily := fillna 0 (pct_change adj)
  let h2 := heapSet h1 returns (setCol (heapGet h1 returns) "daily_return" daily)
  let growth_factors := daily.map fun r => 1 + r
  let cumulative := (cumprod growth_factors).map fun g => g - 1
  let h3 := heapSet h2 returns
    (setCol (heapGet h2 returns) "cumulative_return" cumulative)
  heapAlloc h3 (dropnaFrame (heapGet h3 returns))

/-- Default row used with `List.getD` when stating indexed properties. -/
def defaultPriceRow : PricePoint :=
  { date := 0, adj_close := 0 }

/-- Default row used with `List.getD` when stating indexed properties. -/
def defaultReturnRow : ReturnPoint :=
  { date := 0, adj_close := 0, daily_return := 0, cumulative_return := 0 }

/-! Supporting lemmas about the list-level return calculator. -/

lemma dropna_eq_self (rows : List ReturnPoint) : dropna rows = rows := by
  simp [dropna, isna]

lemma pct_change_length (xs : List ℚ) : (pct_change xs).length = xs.length := by
  cases xs with
  | nil => rfl
  | cons x rest => simp [pct_change]

lemma fillna_length (v : ℚ) (xs : List (Option ℚ)) :
    (fillna v xs).length = xs.length := by
  simp [fillna]

lemma cumprodAux_length (acc : ℚ) (xs : List ℚ) :
    (cumprodAux acc xs).length = xs.length := by
  induction xs generalizing acc with
  | nil => rfl
  | cons x rest ih => simp [cumprodAux, ih]

lemma cumprod_length (xs : List ℚ) : (cumprod xs).length = xs.length :=
  cumprodAux_length 1 xs

lemma cumprodAux_getElem (xs : List ℚ) (acc : ℚ) (i : Nat)
    (h : i < (cumprodAux acc xs).length) :
    (cumprodAux acc xs)[i] = acc * (xs.take (i + 1)).prod := by
  induction xs generalizing acc i with
  | nil => simp [cumprodAux] at h
  | cons x rest ih =>
    cases i with
    | zero => simp [cumprodAux]
    | succ j =>
      have hj : j < (cumprodAux (acc * x) rest).length := by
        simpa [cumprodAux] using h
      simpa [cumprodAux, List.take_succ_cons, mul_assoc] using ih (acc * x) j hj

lemma fillna_getElem (v : ℚ) (xs : List (Option ℚ)) (i : Nat)
    (h : i < (fillna v xs).length) :
    (fillna v xs).get ⟨i, h⟩ =
      (xs.get ⟨i, by simpa [fillna_length] using h⟩).getD v := by
  simp [fillna]

lemma pct_change_getElem_zero (x : ℚ) (rest : List ℚ) :
    (pct_change (x :: rest)).get ⟨0, by simp [pct_change]⟩ = none := by
  simp [pct_change]

lemma pct_change_getElem_succ (xs : List ℚ) (i : Nat)
    (h : i + 1 < (pct_change xs).length) :
    (pct_change xs).get ⟨i + 1, h⟩ =
      some ((xs.get ⟨i + 1, by simpa [pct_change_length] using h⟩) /
            (xs.get ⟨i, by have := pct_change_length xs; omega⟩) - 1) := by
  cases xs with
  | nil => simp [pct_change] at h
  | cons x rest =>
    have hlen : i < (List.zipWith
        (fun prev cur => some (cur / prev - 1)) (x :: rest) rest).length := by
      simpa [pct_change] using h
    have hi : i < rest.length := by
      simp [List.length_zipWith] at hlen
      omega
    simp [pct_change, List.getElem_zipWith]

lemma mkReturnRows_length (ps : List PricePoint) (ds cs : List ℚ)
    (hd : ds.length = ps.length) (hc : cs.length = ps.length) :
    (mkReturnRows ps ds cs).length = ps.length := by
  induction ps generalizing ds cs with
  | nil => cases ds <;> cases cs <;> simp [mkReturnRows]
  | cons p ps ih =>
    cases ds with
    | nil => simp at hd
    | cons d ds =>
      cases cs with
      | nil => simp at hc
      | cons c cs =>
        simp only [mkReturnRows, List.length_cons]
        have := ih ds cs (by simpa using hd) (by simpa using hc)
        omega

lemma mkReturnRows_map_date (ps : List PricePoint) (ds cs : List ℚ)
    (hd : ds.length = ps.length) (hc : cs.length = ps.length) :
    (mkReturnRows ps ds cs).map (fun r => r.date) = ps.map fun p => p.date := by
  induction ps generalizing ds cs with
  | nil => cases ds <;> cases cs <;> simp [mkReturnRows]
  | cons p ps ih =>
    cases ds with
    | nil => simp at hd
    | cons d ds =>
      cases cs with
      | nil => simp at hc
      | cons c cs =>
        simp only [mkReturnRows, List.map_cons, List.cons.injEq, true_and]
        exact ih ds cs (by simpa using hd) (by simpa using hc)

lemma mkReturnRows_map_adj (ps : List PricePoint) (ds cs : List ℚ)
    (hd : ds.length = ps.length) (hc : cs.length = ps.length) :
    (mkReturnRows ps ds cs).map (fun r => r.adj_close) =
      ps.map fun p => p.adj_close := by
  induction ps generalizing ds cs with
  | nil => cases ds <;> cases cs <;> simp [mkReturnRows]
  | cons p ps ih =>
    cases ds with
    | nil => simp at hd
    | cons d ds =>
      cases cs with
      | nil => simp at hc
      | cons c cs =>
        simp only [mkReturnRows, List.map_cons, List.cons.injEq, true_and]
        exact ih ds cs (by simpa using hd) (by simpa using hc)

lemma mkReturnRows_map_daily (ps : List PricePoint) (ds cs : List ℚ)
    (hd : ds.length = ps.length) (hc : cs.length = ps.length) :
    (mkReturnRows ps ds cs).map (fun r => r.daily_return) = ds := by
  induction ps generalizing ds cs with
  | nil => cases ds <;> cases cs <;> simp_all [mkReturnRows]
  | cons p ps ih =>
    cases ds with
    | nil => simp at hd
    | cons d ds =>
      cases cs with
      | nil => simp at hc
      | cons c cs =>
        simp only [mkReturnRows, List.map_cons, List.cons.injEq, true_and]
        exact ih ds cs (by simpa using hd) (by simpa using hc)

lemma mkReturnRows_map_cumulative (ps : List PricePoint) (ds cs : List ℚ)
    (hd : ds.length = ps.length) (hc : cs.length = ps.length) :
    (mkReturnRows ps ds cs).map (fun r => r.cumulative_return) = cs := by
  induction ps generalizing ds cs with
  | nil => cases ds <;> cases cs <;> simp_all [mkReturnRows]
  | cons p ps ih =>
    cases ds with
    | nil => simp at hd
    | cons d ds =>
      cases cs with
      | nil => simp at hc
      | cons c cs =>
        simp only [mkReturnRows, List.map_cons, List.cons.injEq, true_and]
        exact ih ds cs (by simpa using hd) (by simpa using hc)

/-- The daily-return column of `compute_returns`, as a list. -/
def dailyCol (price_history : List PricePoint) : List ℚ :=
  fillna 0 (pct_change (price_history.map fun p => p.adj_close))

/-- The cumulative-return column of `compute_returns`, as a list. -/
def cumulativeCol (price_history : List PricePoint) : List ℚ :=
  (cumprod ((dailyCol price_history).map fun r => 1 + r)).map fun g => g - 1

lemma compute_returns_eq (price_history : List PricePoint) :
    compute_returns price_history =
      mkReturnRows price_history (dailyCol price_history)
        (cumulativeCol price_history) := by
  simp [compute_returns, dailyCol, cumulativeCol, dropna_eq_self]

lemma dailyCol_length (ps : List PricePoint) :
    (dailyCol ps).length = ps.length := by
  simp [dailyCol, fillna_length, pct_change_length]

lemma cumulativeCol_length (ps : List PricePoint) :
    (cumulativeCol ps).length = ps.length := by
  simp [cumulativeCol, cumprod_length, dailyCol_length]

lemma compute_returns_length (ps : List PricePoint) :
    (compute_returns ps).length = ps.length := by
  rw [compute_returns_eq]
  exact mkReturnRows_length ps _ _ (dailyCol_length ps) (cumulativeCol_length ps)

lemma compute_returns_map_daily (ps : List PricePoint) :
    (compute_returns ps).map (fun r => r.daily_return) = dailyCol ps := by
  rw [compute_returns_eq]
  exact mkReturnRows_map_daily ps _ _ (dailyCol_length ps) (cumulativeCol_length ps)

lemma compute_returns_map_cumulative (ps : List PricePoint) :
    (compute_returns ps).map (fun r => r.cumulative_return) = cumulativeCol ps := by
  rw [compute_returns_eq]
  exact mkReturnRows_map_cumulative ps _ _ (dailyCol_length ps)
    (cumulativeCol_length ps)

/-! Supporting lemmas about the reporter. -/

lemma fromisoformat_ok_or_formatError (s : String) :
    (∃ d, fromisoformat s = Except.ok d) ∨
      fromisoformat s = Except.error RunError.formatError := by
  unfold fromisoformat
  cases fromisoformatCore s.toList with
  | none => exact Or.inr rfl
  | some d => exact Or.inl ⟨d, rfl⟩

lemma iloc_zero (xs : List ReturnPoint) (h : xs ≠ []) :
    iloc xs 0 = Except.ok (xs.head h) := by
  have hlen : 0 < xs.length := List.length_pos.mpr h
  have hcond : (0 : Int) ≤ 0 ∧ (0 : Int).toNat < xs.length := by
    constructor
    · exact le_refl 0
    · simpa using hlen
  simp [iloc, hcond, hlen, List.head_eq_getElem]

lemma iloc_neg_one (xs : List ReturnPoint) (h : xs ≠ []) :
    iloc xs (-1) = Except.ok (xs.getLast h) := by
  have hlen : 0 < xs.length := List.length_pos.mpr h
  have hj : ((-1 : Int) + xs.length).toNat = xs.length - 1 := by omega
  have h2 : (0 : Int) ≤ -1 + xs.length := by omega
  have h3 : ((-1 : Int) + xs.length).toNat < xs.length := by omega
  rw [List.getLast_eq_getElem]
  simp [iloc, h2, h3, hj, hlen]

lemma summarize_returns_ok (returns : List ReturnPoint)
    (config : AnalysisConfig) (hne : returns ≠ []) (pr : Date × Date)
    (hdr : config.date_range = Except.ok pr) :
    summarize_returns returns config = Except.ok
      { ticker := config.ticker
        start_date := pr.1
        end_date := pr.2
        first_price := (returns.head hne).adj_close
        last_price := (returns.getLast hne).adj_close
        total_return := (returns.getLast hne).cumulative_return } := by
  simp only [summarize_returns, hdr, iloc_zero returns hne,
    iloc_neg_one returns hne]
  rfl

lemma summarize_returns_nil (config : AnalysisConfig) (pr : Date × Date)
    (hdr : config.date_range = Except.ok pr) :
    summarize_returns [] config = Except.error RunError.indexError := by
  simp only [summarize_returns, hdr, iloc]
  rfl

/-! Per-index lemmas for the two derived columns. -/

lemma dailyCol_getElem_zero (prices : List PricePoint) (hne : prices ≠ [])
    (h0 : 0 < (dailyCol prices).length) :
    (dailyCol prices).get ⟨0, h0⟩ = 0 := by
  cases prices with
  | nil => exact absurd rfl hne
  | cons p rest =>
    have hz := pct_change_getElem_zero p.adj_close (rest.map fun q => q.adj_close)
    simp only [dailyCol, List.map_cons] at h0 ⊢
    rw [fillna_getElem]
    simp only [List.get_eq_getElem] at hz
    simp [hz]

lemma dailyCol_getElem_succ (prices : List PricePoint) (i : Nat)
    (h : i + 1 < (dailyCol prices).length) :
    (dailyCol prices).get ⟨i + 1, h⟩ =
      (prices.get ⟨i + 1, by simpa [dailyCol_length] using h⟩).adj_close /
        (prices.get ⟨i, by have := dailyCol_length prices; omega⟩).adj_close
        - 1 := by
  have hp : i + 1 < (pct_change (prices.map fun p => p.adj_close)).length := by
    simpa [dailyCol, fillna_length] using h
  simp only [dailyCol]
  rw [fillna_getElem]
  rw [pct_change_getElem_succ _ i hp]
  simp [List.get_eq_getElem, List.getElem_map]

lemma cumprod_getElem (xs : List ℚ) (i : Nat) (h : i < (cumprod xs).length) :
    (cumprod xs)[i] = (xs.take (i + 1)).prod :=
  (cumprodAux_getElem xs 1 i h).trans (one_mul _)

lemma cumulativeCol_getElem (prices : List PricePoint) (i : Nat)
    (h : i < (cumulativeCol prices).length) :
    (cumulativeCol prices).get ⟨i, h⟩ =
      ((((dailyCol prices).map fun r => 1 + r).take (i + 1)).prod) - 1 := by
  simp only [cumulativeCol, List.get_eq_getElem, List.getElem_map]
  rw [cumprod_getElem]

lemma compute_returns_getElem_daily (prices : List PricePoint) (i : Nat)
    (h : i < (compute_returns prices).length) :
    ((compute_returns prices).get ⟨i, h⟩).daily_return =
      (dailyCol prices).get
        ⟨i, by simpa [dailyCol_length, compute_returns_length] using h⟩ := by
  have hmap := compute_returns_map_daily prices
  have hi : i < ((compute_returns prices).map
      fun r => r.daily_return).length := by simpa using h
  have := List.getElem_of_eq hmap hi
  simpa [List.getElem_map] using this

lemma compute_returns_getElem_cumulative (prices : List PricePoint) (i : Nat)
    (h : i < (compute_returns prices).length) :
    ((compute_returns prices).get ⟨i, h⟩).cumulative_return =
      (cumulativeCol prices).get
        ⟨i, by simpa [cumulativeCol_length, compute_returns_length] using h⟩ := by
  have hmap := compute_returns_map_cumulative prices
  have hi : i < ((compute_returns prices).map
      fun r => r.cumulative_return).length := by simpa using h
  have := List.getElem_of_eq hmap hi
  simpa [List.getElem_map] using this

/-! The claims. -/

/-- Claim C1: for every price series, at every index of the computed return
series, one plus the cumulative return equals the product of the growth
factors `1 + daily_return` over the prefix up to and including that index;
the incremental running product agrees with the per-prefix product
definition. -/
theorem cumulative_return_is_prefix_product (prices : List PricePoint)
    (i : Nat) (h : i < (compute_returns prices).length) :
    1 + ((compute_returns prices).getD i defaultReturnRow).cumulative_return =
      (((compute_returns prices).take (i + 1)).map
        fun r => 1 + r.daily_return).prod := by
  rw [List.getD_eq_getElem _ _ h]
  have hcum := compute_returns_getElem_cumulative prices i h
  have hcc := cumulativeCol_getElem prices i
    (by simpa [cumulativeCol_length, compute_returns_length] using h)
  simp only [List.get_eq_getElem] at hcum hcc
  rw [hcum, hcc]
  have hdaily := compute_returns_map_daily prices
  have hmt : ((compute_returns prices).take (i + 1)).map
      (fun r => 1 + r.daily_return) =
      (((compute_returns prices).map fun r => r.daily_return).map
        (fun d => 1 + d)).take (i + 1) := by
    rw [List.map_take, List.map_map]
    rfl
  rw [hmt, hdaily]
  ring

/-- Claim C1 witness: the identity instantiated on the three-point series
`[100, 110, 99]` at its last index. -/
theorem cumulative_return_is_prefix_product_witness :
    2 < (compute_returns [⟨0, 100⟩, ⟨1, 110⟩, ⟨2, 99⟩]).length ∧
    1 + ((compute_returns [⟨0, 100⟩, ⟨1, 110⟩, ⟨2, 99⟩]).getD 2
        defaultReturnRow).cumulative_return =
      (((compute_returns [⟨0, 100⟩, ⟨1, 110⟩, ⟨2, 99⟩]).take (2 + 1)).map
        fun r => 1 + r.daily_return).prod :=
  ⟨by simp [compute_returns_length],
    cumulative_return_is_prefix_product [⟨0, 100⟩, ⟨1, 110⟩, ⟨2, 99⟩] 2
      (by simp [compute_returns_length])⟩

/-- Claim C2: for every non-empty price series with all-positive adjusted
closes, the first daily return is `0` and every later daily return is
`adjusted_close[i] / adjusted_close[i-1] - 1`. -/
theorem daily_return_formula (prices : List PricePoint)
    (hne : prices ≠ []) (hpos : ∀ p ∈ prices, 0 < p.adj_close) :
    ((compute_returns prices).getD 0 defaultReturnRow).daily_return = 0 ∧
    ∀ i, i < prices.length → 0 < i →
      ((compute_returns prices).getD i defaultReturnRow).daily_return =
        (prices.getD i defaultPriceRow).adj_close /
          (prices.getD (i - 1) defaultPriceRow).adj_close - 1 := by
  have hlen := compute_returns_length prices
  have hpos0 : 0 < prices.length := List.length_pos.mpr hne
  constructor
  · have h0 : 0 < (compute_returns prices).length := by omega
    rw [List.getD_eq_getElem _ _ h0]
    have hd := compute_returns_getElem_daily prices 0 h0
    have hz := dailyCol_getElem_zero prices hne (by simpa [dailyCol_length])
    simp only [List.get_eq_getElem] at hd hz
    rw [hd, hz]
  · intro i hi hipos
    obtain ⟨j, rfl⟩ : ∃ j, i = j + 1 := ⟨i - 1, by omega⟩
    have hrow : j + 1 < (compute_returns prices).length := by omega
    rw [List.getD_eq_getElem _ _ hrow, List.getD_eq_getElem _ _ hi,
      List.getD_eq_getElem _ _ (show j + 1 - 1 < prices.length by omega)]
    have hd := compute_returns_getElem_daily prices (j + 1) hrow
    have hds := dailyCol_getElem_succ prices j
      (by simpa [dailyCol_length] using hi)
    simp only [List.get_eq_getElem] at hd hds
    rw [hd, hds]
    congr 2

/-- Claim C2 witness: the formulas instantiated on the series
`[100, 110, 99]`. -/
theorem daily_return_formula_witness :
    ([⟨0, 100⟩, ⟨1, 110⟩, ⟨2, 99⟩] : List PricePoint) ≠ [] ∧
    (∀ p ∈ ([⟨0, 100⟩, ⟨1, 110⟩, ⟨2, 99⟩] : List PricePoint),
      0 < p.adj_close) ∧
    (((compute_returns [⟨0, 100⟩, ⟨1, 110⟩, ⟨2, 99⟩]).getD 0
        defaultReturnRow).daily_return = 0 ∧
      ∀ i, i < ([⟨0, 100⟩, ⟨1, 110⟩, ⟨2, 99⟩] : List PricePoint).length →
        0 < i →
        ((compute_returns [⟨0, 100⟩, ⟨1, 110⟩, ⟨2, 99⟩]).getD i
            defaultReturnRow).daily_return =
          (([⟨0, 100⟩, ⟨1, 110⟩, ⟨2, 99⟩] : List PricePoint).getD i
              defaultPriceRow).adj_close /
            (([⟨0, 100⟩, ⟨1, 110⟩, ⟨2, 99⟩] : List PricePoint).getD (i - 1)
              defaultPriceRow).adj_close - 1) :=
  ⟨by simp, by norm_num,
    daily_return_formula [⟨0, 100⟩, ⟨1, 110⟩, ⟨2, 99⟩] (by simp)
      (by norm_num)⟩

/-- Claim C3: the fetch stage raises `NoDataError` exactly when the
provider returned an empty frame, and in that case the whole run aborts
with that error, producing no summary and no chart. -/
theorem fetch_noData_iff_empty (downloaded : List ProviderRow)
    (config : AnalysisConfig) :
    (fetch_price_history downloaded config = Except.error RunError.noData ↔
      downloaded = []) ∧
    (downloaded = [] →
      main_run downloaded config = Except.error RunError.noData) := by
  cases downloaded with
  | nil => exact ⟨⟨fun _ => rfl, fun _ => rfl⟩, fun _ => rfl⟩
  | cons d rest =>
    refine ⟨⟨fun hfe => ?_, fun hc => by cases hc⟩, fun hc => by cases hc⟩
    simp [fetch_price_history] at hfe

/-- Claim C3 witness: the empty download aborts the run with `noData` and
a non-empty download does not raise it. -/
theorem fetch_noData_iff_empty_witness :
    fetch_price_history [] {} = Except.error RunError.noData ∧
    main_run [] {} = Except.error RunError.noData :=
  ⟨(fetch_noData_iff_empty [] {}).1.mpr rfl,
    (fetch_noData_iff_empty [] {}).2 rfl⟩

/-- Claim C4: the return series carries exactly the input dates in input
order, and its length never exceeds the input length. -/
theorem compute_returns_preserves_dates (prices : List PricePoint) :
    (compute_returns prices).map (fun r => r.date) =
      prices.map (fun p => p.date) ∧
    (compute_returns prices).length ≤ prices.length := by
  constructor
  · rw [compute_returns_eq]
    exact mkReturnRows_map_date prices _ _ (dailyCol_length prices)
      (cumulativeCol_length prices)
  · rw [compute_returns_length]

/-- Claim C5: for every non-empty return series whose configured dates
parse, the summary's starting and ending adjusted closes are exactly the
`adj_close` of the first and last series elements, and the printed total
return is exactly the `cumulative_return` of the last element. -/
theorem summary_uses_series_endpoints (returns : List ReturnPoint)
    (config : AnalysisConfig) (hne : returns ≠ []) (pr : Date × Date)
    (hdr : config.date_range = Except.ok pr) :
    summarize_returns returns config = Except.ok
      { ticker := config.ticker
        start_date := pr.1
        end_date := pr.2
        first_price := (returns.head hne).adj_close
        last_price := (returns.getLast hne).adj_close
        total_return := (returns.getLast hne).cumulative_return } :=
  summarize_returns_ok returns config hne pr hdr

/-- Claim C5 witness: the summary of a concrete two-row series under the
default configuration. -/
theorem summary_uses_series_endpoints_witness :
    ([⟨0, 100, 0, 0⟩, ⟨1, 110, 1/10, 1/10⟩] : List ReturnPoint) ≠ [] ∧
    (AnalysisConfig.date_range {}) =
      Except.ok (⟨2005, 1, 1⟩, ⟨2025, 10, 28⟩) ∧
    summarize_returns [⟨0, 100, 0, 0⟩, ⟨1, 110, 1/10, 1/10⟩] {} =
      Except.ok
        { ticker := "^IXIC"
          start_date := ⟨2005, 1, 1⟩
          end_date := ⟨2025, 10, 28⟩
          first_price := 100
          last_price := 110
          total_return := 1/10 } :=
  ⟨by simp, rfl,
    summary_uses_series_endpoints [⟨0, 100, 0, 0⟩, ⟨1, 110, 1/10, 1/10⟩] {}
      (by simp) (⟨2005, 1, 1⟩, ⟨2025, 10, 28⟩) rfl⟩

/-- Claim C6: dataclass construction accepts any ticker and date strings,
including a start date after the end date, applying the declared defaults
for omitted fields; no validation happens at construction time (the
constructor is total). -/
theorem create_applies_defaults (t s e : Option String) :
    (AnalysisConfig.create t s e).ticker = t.getD "^IXIC" ∧
    (AnalysisConfig.create t s e).start_date = s.getD "2005-01-01" ∧
    (AnalysisConfig.create t s e).end_date = e.getD "2025-10-28" :=
  ⟨rfl, rfl, rfl⟩

/-- Claim C7: `date_range` returns the two parsed dates when both stored
strings parse as ISO dates, and fails with `FormatError` exactly when at
least one of them does not. -/
theorem date_range_parses_or_formatError (config : AnalysisConfig) :
    (∀ s e, fromisoformat config.start_date = Except.ok s →
        fromisoformat config.end_date = Except.ok e →
        config.date_range = Except.ok (s, e)) ∧
    (config.date_range = Except.error RunError.formatError ↔
      ¬ ((∃ d, fromisoformat config.start_date = Except.ok d) ∧
        (∃ d, fromisoformat config.end_date = Except.ok d))) := by
  constructor
  · intro s e hs he
    simp only [AnalysisConfig.date_range, hs, he]
    rfl
  · rcases fromisoformat_ok_or_formatError config.start_date with ⟨d1, h1⟩ | h1
    · rcases fromisoformat_ok_or_formatError config.end_date with ⟨d2, h2⟩ | h2
      · constructor
        · intro hc
          simp only [AnalysisConfig.date_range, h1, h2] at hc
          cases hc
        · intro hn
          exact absurd ⟨⟨d1, h1⟩, ⟨d2, h2⟩⟩ hn
      · constructor
        · intro _
          rintro ⟨_, ⟨d, hd⟩⟩
          rw [h2] at hd
          cases hd
        · intro _
          simp only [AnalysisConfig.date_range, h1, h2]
          rfl
    · constructor
      · intro _
        rintro ⟨⟨d, hd⟩, _⟩
        rw [h1] at hd
        cases hd
      · intro _
        simp only [AnalysisConfig.date_range, h1]
        rfl

/-- Claim C7 witness: the default configuration parses to the default
dates; a malformed start date, and the out-of-range `"0000-01-01"`
(`MINYEAR` is 1), fail with `FormatError`; the time-suffixed
`"2005-01-01T00:00:00"`, which `datetime.fromisoformat` accepts, parses. -/
theorem date_range_parses_or_formatError_witness :
    (AnalysisConfig.date_range {}) =
      Except.ok (⟨2005, 1, 1⟩, ⟨2025, 10, 28⟩) ∧
    AnalysisConfig.date_range { start_date := "hello" } =
      Except.error RunError.formatError ∧
    AnalysisConfig.date_range { start_date := "0000-01-01" } =
      Except.error RunError.formatError ∧
    AnalysisConfig.date_range { start_date := "2005-01-01T00:00:00" } =
      Except.ok (⟨2005, 1, 1⟩, ⟨2025, 10, 28⟩) :=
  ⟨(date_range_parses_or_formatError {}).1 ⟨2005, 1, 1⟩ ⟨2025, 10, 28⟩
      rfl rfl,
    (date_range_parses_or_formatError { start_date := "hello" }).2.mpr
      (by
        rintro ⟨⟨d, hd⟩, _⟩
        have hbad : (Except.error RunError.formatError : Except RunError Date) =
            Except.ok d := hd
        cases hbad),
    (date_range_parses_or_formatError { start_date := "0000-01-01" }).2.mpr
      (by
        rintro ⟨⟨d, hd⟩, _⟩
        have hbad : (Except.error RunError.formatError : Except RunError Date) =
            Except.ok d := hd
        cases hbad),
    (date_range_parses_or_formatError
        { start_date := "2005-01-01T00:00:00" }).1 ⟨2005, 1, 1⟩
      ⟨2025, 10, 28⟩ rfl rfl⟩

/-- Claim C8: on the price series `[100, 110, 99]` on consecutive days the
daily returns are `[0, 0.10, -0.10]` and the cumulative returns are
`[0, 0.10, -0.01]`. -/
theorem concrete_scenario_returns :
    (compute_returns [⟨0, 100⟩, ⟨1, 110⟩, ⟨2, 99⟩]).map
        (fun r => r.daily_return) = [0, 1/10, -1/10] ∧
    (compute_returns [⟨0, 100⟩, ⟨1, 110⟩, ⟨2, 99⟩]).map
        (fun r => r.cumulative_return) = [0, 1/10, -1/100] := by
  constructor <;>
    (simp [compute_returns, pct_change, fillna, cumprod, cumprodAux,
      dropna, isna, mkReturnRows]; norm_num)

/-- Claim C9: replaying `compute_returns` against the dataframe heap
leaves every pre-existing frame untouched: `copy()` allocates a fresh
cell and both column assignments hit only that cell, so the fetched price
frame is never mutated. -/
theorem compute_returns_heap_preserves_input (h : Heap) (r r' : Nat)
    (hr' : r' < h.length) :
    ((compute_returns_heap h r).1)[r']? = h[r']? := by
  unfold compute_returns_heap heapAlloc heapSet heapGet
  simp only
  rw [List.getElem?_append_left (by simp [List.length_set]; omega)]
  rw [List.getElem?_set_ne (by omega)]
  rw [List.getElem?_set_ne (by omega)]
  rw [List.getElem?_append_left hr']

/-- Claim C9 witness: a singleton heap holding a one-row price frame is
unchanged at its only reference. -/
theorem compute_returns_heap_preserves_input_witness :
    0 < ([⟨[0], [("adj_close", [100])]⟩] : Heap).length ∧
    ((compute_returns_heap [⟨[0], [("adj_close", [100])]⟩] 0).1)[0]? =
      ([⟨[0], [("adj_close", [100])]⟩] : Heap)[0]? :=
  ⟨by simp, compute_returns_heap_preserves_input
    [⟨[0], [("adj_close", [100])]⟩] 0 0 (by simp)⟩

/-- Claim C10: with parseable configured dates, `summarize_returns` on the
empty series fails with an out-of-bounds access, and on every non-empty
series its first/last accesses are in bounds and it succeeds. -/
theorem summarize_requires_nonempty (config : AnalysisConfig)
    (pr : Date × Date) (hdr : config.date_range = Except.ok pr) :
    summarize_returns [] config = Except.error RunError.indexError ∧
    ∀ returns : List ReturnPoint, returns ≠ [] →
      ∃ d, summarize_returns returns config = Except.ok d := by
  refine ⟨summarize_returns_nil config pr hdr, ?_⟩
  intro returns hne
  exact ⟨_, summarize_returns_ok returns config hne pr hdr⟩

/-- Claim C10 witness: under the default configuration the empty series
raises `IndexError` while a one-row series is summarized successfully. -/
theorem summarize_requires_nonempty_witness :
    (AnalysisConfig.date_range {}) =
      Except.ok (⟨2005, 1, 1⟩, ⟨2025, 10, 28⟩) ∧
    summarize_returns [] {} = Except.error RunError.indexError ∧
    ∃ d, summarize_returns [⟨0, 100, 0, 0⟩] {} = Except.ok d :=
  ⟨rfl,
    (summarize_requires_nonempty {} (⟨2005, 1, 1⟩, ⟨2025, 10, 28⟩) rfl).1,
    (summarize_requires_nonempty {} (⟨2005, 1, 1⟩, ⟨2025, 10, 28⟩) rfl).2
      [⟨0, 100, 0, 0⟩] (by simp)⟩
